import Mathlib

/-!
Verification of solbuild, `src/builder/pkg.go`.

A shallow embedding of the package-identity reader of solbuild: the format
dispatcher `NewPackage`, the pspec.xml reader `NewXMLPackage` and the
package.yml stub `NewYmlPackage`, together with the parts of the Go standard
library they call (`strings.HasSuffix`, `strings.TrimSpace`, `errors.New`,
`fmt.Errorf` with one `%d` verb).

Modelling conventions.

* A Go `string` is a Lean `String`, a sequence of Unicode code points.  The
  strings that reach the validation code come out of `encoding/xml`, which
  rejects text that is not valid UTF-8, and the only test made on a path is a
  comparison with the ASCII suffix `.xml`.
* A Go `int` is a Lean `Int`; the code only compares it with zero and prints it.
* A Go pointer result `*Package` is an `Option Package` (`none` is `nil`), and a
  Go `error` result is an `Option GoError` (`none` is `nil`).
* The file system and the XML decoder are collaborators of the code; they are
  the fields of a `World`, over which every statement is universally
  quantified.
* A run of a function either returns its pair of results or stops in a run-time
  panic (an index out of range); `Outcome` keeps the two apart.
* The deferred `fi.Close()` of `NewXMLPackage` changes no result and is left
  out.
-/

namespace Solbuild

/-! ## Data model (pkg.go, lines 28-63) -/

/-- Package is the main item we deal with, avoiding the internals. -/
structure Package where
  Name : String
  Version : String
  Release : Int
deriving DecidableEq

/-- XMLUpdate represents an update in the package history. -/
structure XMLUpdate where
  Release : Int
  Date : String
  Version : String
  Comment : String
  Name : String
  Email : String
deriving DecidableEq

/-- XMLSource is the actual source info for each pspec.xml. -/
structure XMLSource where
  Homepage : String
  Name : String
deriving DecidableEq

/-- XMLPackage contains all of the pspec.xml metadata. -/
structure XMLPackage where
  Name : String
  Source : XMLSource
  History : List XMLUpdate
deriving DecidableEq

/-! ## Errors -/

/-- An error value handed back by a collaborator (`os.Open`, `ioutil.ReadAll`,
`xml.Unmarshal`).  It is a value of that package, never one allocated by
`errors.New` in pkg.go; only its text is kept. -/
structure ForeignError where
  text : String
deriving DecidableEq

/-- The Go `error` values that pkg.go can return: either an error string that
pkg.go itself creates with `errors.New` or `fmt.Errorf`, or an error passed
through unchanged from a collaborator. -/
inductive GoError where
  | errorString (s : String)
  | foreign (e : ForeignError)
deriving DecidableEq

/-- The method `Error()` of the `error` interface: the message of the error. -/
def GoError.Error : GoError → String
  | .errorString s => s
  | .foreign e => e.text

/-- The function `errors.New`: an error whose message is the given text. -/
def errorsNew (text : String) : GoError := .errorString text

/-- The verb `%d` of package fmt applied to an `int`: the decimal digits of the
magnitude, with a leading minus sign for a negative value. -/
def fmtD : Int → String
  | Int.ofNat m => Nat.repr m
  | Int.negSucc m => "-" ++ Nat.repr (m + 1)

/-- The call `fmt.Errorf(lead + "%d", n)` for a text `lead` without verbs: an
error whose message is `lead` followed by the rendering of `n`. -/
def fmtErrorf (lead : String) (n : Int) : GoError :=
  .errorString (lead ++ fmtD n)

/-! ## Package strings -/

/-- The function `strings.HasSuffix`:
`len(s) >= len(suffix) && s[len(s)-len(suffix):] == suffix`. -/
def HasSuffix (s suffix : String) : Bool :=
  decide (s.data.length ≥ suffix.data.length) &&
    decide (s.data.drop (s.data.length - suffix.data.length) = suffix.data)

/-- The function `unicode.IsSpace`: the code points with the Unicode property
White_Space.  In Latin-1 these are tab, line feed, vertical tab, form feed,
carriage return, space, U+0085 and U+00A0; beyond Latin-1 they are U+1680,
U+2000 to U+200A, U+2028, U+2029, U+202F, U+205F and U+3000. -/
def isSpace (c : Char) : Bool :=
  let n := c.toNat
  n == 0x09 || n == 0x0A || n == 0x0B || n == 0x0C || n == 0x0D || n == 0x20 ||
  n == 0x85 || n == 0xA0 || n == 0x1680 || (decide (0x2000 ≤ n) && decide (n ≤ 0x200A)) ||
  n == 0x2028 || n == 0x2029 || n == 0x202F || n == 0x205F || n == 0x3000

/-- The function `strings.TrimLeftFunc` on the code points of a string: the part
that starts at the first code point not satisfying `f` (empty when there is
none). -/
def TrimLeftFunc (s : List Char) (f : Char → Bool) : List Char :=
  s.dropWhile f

/-- The function `strings.TrimRightFunc` on the code points of a string: the
part that ends with the last code point not satisfying `f` (empty when there is
none). -/
def TrimRightFunc (s : List Char) (f : Char → Bool) : List Char :=
  (s.reverse.dropWhile f).reverse

/-- The function `strings.TrimFunc`:
`TrimRightFunc(TrimLeftFunc(s, f), f)`. -/
def TrimFunc (s : List Char) (f : Char → Bool) : List Char :=
  TrimRightFunc (TrimLeftFunc s f) f

/-- The function `strings.TrimSpace`: `TrimFunc(s, unicode.IsSpace)`. -/
def TrimSpace (s : String) : String :=
  ⟨TrimFunc s.data isSpace⟩

/-! ## Collaborators -/

/-- A byte of a file. -/
abbrev Byte := Fin 256

/-- The environment of one call: what `os.Open` answers for a path (a file
handle or an error), what `ioutil.ReadAll` answers for a handle (the bytes or
an error) and what `xml.Unmarshal` into an `XMLPackage` answers for a byte
sequence (the decoded document or an error). -/
structure World where
  Open : String → Except ForeignError Nat
  ReadAll : Nat → Except ForeignError (List Byte)
  Unmarshal : List Byte → Except ForeignError XMLPackage

/-- How a call ends: it returns the pair `(*Package, error)`, or the run stops in
a run-time panic. -/
inductive Outcome where
  | ret (pkg : Option Package) (err : Option GoError)
  | panic
deriving DecidableEq

/-! ## The functions of pkg.go -/

/-- NewYmlPackage will attempt to parse the ypkg package.yml file @ path
(pkg.go, lines 118-120). -/
def NewYmlPackage (_path : String) : Outcome :=
  .ret none (some (errorsNew "ypkg: Not yet implemented"))

/-- NewXMLPackage will attempt to parse the pspec.xml file @ path
(pkg.go, lines 75-115). -/
def NewXMLPackage (w : World) (path : String) : Outcome :=
  match w.Open path with
  | .error err => .ret none (some (.foreign err))
  | .ok fi =>
    match w.ReadAll fi with
    | .error err => .ret none (some (.foreign err))
    | .ok by_ =>
      match w.Unmarshal by_ with
      | .error err => .ret none (some (.foreign err))
      | .ok xpkg =>
        if xpkg.History.length < 1 then
          .ret none (some (errorsNew "xml: Malformed pspec file"))
        else
          match xpkg.History[0]? with
          | none => .panic
          | some upd =>
            let ret : Package :=
              { Name := TrimSpace xpkg.Source.Name
                Version := TrimSpace upd.Version
                Release := upd.Release }
            if ret.Name = "" then
              .ret none (some (errorsNew "xml: Missing name in package"))
            else if ret.Version = "" then
              .ret none (some (errorsNew "xml: Missing version in package"))
            else if ret.Release < 0 then
              .ret none (some (fmtErrorf "xml: Invalid release in package: " ret.Release))
            else
              .ret (some ret) none

/-- NewPackage will attempt to parse the given path, and return a new Package
instance if this succeeds (pkg.go, lines 67-72). -/
def NewPackage (w : World) (path : String) : Outcome :=
  if HasSuffix path ".xml" then
    NewXMLPackage w path
  else
    NewYmlPackage path

/-! ## Vocabulary of the statements -/

/-- The file at `path` opens, reads and decodes without error, and the decoded
document is `xpkg`. -/
def Decodes (w : World) (path : String) (xpkg : XMLPackage) : Prop :=
  ∃ fi bs, w.Open path = .ok fi ∧ w.ReadAll fi = .ok bs ∧ w.Unmarshal bs = .ok xpkg

/-- A world in which every path opens, reads and decodes to the document
`xpkg`. -/
def worldOf (xpkg : XMLPackage) : World :=
  { Open := fun _ => .ok 3
    ReadAll := fun _ => .ok []
    Unmarshal := fun _ => .ok xpkg }

/-- A string is blank: it is empty or every code point of it is white space. -/
def Blank (s : String) : Prop :=
  ∀ c ∈ s.data, isSpace c = true

instance (s : String) : Decidable (Blank s) := by
  unfold Blank
  infer_instance

/-- A returned record is valid: its name and version are not empty and its
release is not negative. -/
def Valid (p : Package) : Prop :=
  p.Name ≠ "" ∧ p.Version ≠ "" ∧ 0 ≤ p.Release

/-- A call ends all-or-nothing: either it returns a valid record and a nil
error, or it returns a nil record and an error. -/
def AllOrNothing (out : Outcome) : Prop :=
  (∃ p, out = .ret (some p) none ∧ Valid p) ∨ (∃ e, out = .ret none (some e))

/-- The string `t` is the string `s` with its leading and trailing white space
removed: `s` is `t` between two runs of white space, `t` neither begins nor
ends with white space, and trimming `t` gives `t` back. -/
def TrimsTo (s t : String) : Prop :=
  (∃ pre post, s.data = pre ++ t.data ++ post ∧
    (∀ c ∈ pre, isSpace c = true) ∧ (∀ c ∈ post, isSpace c = true)) ∧
  (∀ c, t.data.head? = some c → isSpace c = false) ∧
  (∀ c, t.data.getLast? = some c → isSpace c = false) ∧
  TrimSpace t = t

/-- The value of a decimal digit character. -/
def digitVal (c : Char) : Nat := c.toNat - 48

/-- The number that a sequence of decimal digits writes, most significant digit
first. -/
def decVal (ds : List Char) : Nat :=
  ds.foldl (fun a c => 10 * a + digitVal c) 0

/-- A history entry with the given release and version and empty text fields. -/
def mkUpdate (release : Int) (version : String) : XMLUpdate :=
  { Release := release, Date := "", Version := version, Comment := "", Name := "", Email := "" }

/-- A document with the given source name and history, and nothing else. -/
def mkDoc (name : String) (history : List XMLUpdate) : XMLPackage :=
  { Name := "", Source := { Homepage := "", Name := name }, History := history }

/-- The kinds of failure that pkg.go itself creates: the four of
`NewXMLPackage` (lines 95, 106, 109 and 112, the last with the offending
release) and the one of `NewYmlPackage` (line 119). -/
inductive FailureKind where
  | missingHistory
  | missingName
  | missingVersion
  | invalidRelease (release : Int)
  | unsupportedFormat
deriving DecidableEq

/-- The error value that pkg.go creates for a kind of failure. -/
def FailureKind.toError : FailureKind → GoError
  | .missingHistory => errorsNew "xml: Malformed pspec file"
  | .missingName => errorsNew "xml: Missing name in package"
  | .missingVersion => errorsNew "xml: Missing version in package"
  | .invalidRelease release => fmtErrorf "xml: Invalid release in package: " release
  | .unsupportedFormat => errorsNew "ypkg: Not yet implemented"

/-- A document with every field given: top-level name, homepage, source name,
and a single history entry. -/
def mkFullDoc (top homepage name : String) (upd : XMLUpdate) : XMLPackage :=
  { Name := top, Source := { Homepage := homepage, Name := name }, History := [upd] }

/-- The call `NewPackage(path)` in the world `w` meets the condition of a kind
of failure, in the words of the error taxonomy: the path does not end in ".xml"
(unsupported format); or it does, the file decodes, and the history is empty
(missing history), or the history has a first entry and the source name is
blank (missing name), or the source name is not blank and the first-entry
version is blank (missing version), or neither is blank and the first-entry
release is the negative value of the kind (invalid release). -/
def FailsWith (w : World) (path : String) : FailureKind → Prop
  | .unsupportedFormat => ¬ (".xml".data <:+ path.data)
  | .missingHistory =>
    ".xml".data <:+ path.data ∧ ∃ xpkg, Decodes w path xpkg ∧ xpkg.History = []
  | .missingName =>
    ".xml".data <:+ path.data ∧ ∃ xpkg upd rest, Decodes w path xpkg ∧
      xpkg.History = upd :: rest ∧ Blank xpkg.Source.Name
  | .missingVersion =>
    ".xml".data <:+ path.data ∧ ∃ xpkg upd rest, Decodes w path xpkg ∧
      xpkg.History = upd :: rest ∧ ¬ Blank xpkg.Source.Name ∧ Blank upd.Version
  | .invalidRelease release =>
    ".xml".data <:+ path.data ∧ ∃ xpkg upd rest, Decodes w path xpkg ∧
      xpkg.History = upd :: rest ∧ ¬ Blank xpkg.Source.Name ∧ ¬ Blank upd.Version ∧
      upd.Release = release ∧ release < 0

/-! ## Lemmas on the string functions -/

theorem TrimRightFunc_eq_nil_iff (s : List Char) (f : Char → Bool) :
    TrimRightFunc s f = [] ↔ ∀ c ∈ s, f c = true := by
  simp [TrimRightFunc]

theorem TrimLeftFunc_all_iff (s : List Char) (f : Char → Bool) :
    (∀ c ∈ TrimLeftFunc s f, f c = true) ↔ ∀ c ∈ s, f c = true := by
  induction s with
  | nil => simp [TrimLeftFunc]
  | cons a t ih =>
    by_cases ha : f a = true
    · simpa [TrimLeftFunc, List.dropWhile_cons, ha] using ih
    · simp [TrimLeftFunc, List.dropWhile_cons, ha]

theorem TrimFunc_eq_nil_iff (s : List Char) (f : Char → Bool) :
    TrimFunc s f = [] ↔ ∀ c ∈ s, f c = true := by
  rw [TrimFunc, TrimRightFunc_eq_nil_iff, TrimLeftFunc_all_iff]

theorem TrimSpace_eq_empty_iff (s : String) : TrimSpace s = "" ↔ Blank s := by
  rw [String.ext_iff]
  exact TrimFunc_eq_nil_iff s.data isSpace

theorem TrimFunc_split (s : List Char) (f : Char → Bool) :
    ∃ pre post, s = pre ++ TrimFunc s f ++ post ∧
      (∀ c ∈ pre, f c = true) ∧ (∀ c ∈ post, f c = true) := by
  refine ⟨s.takeWhile f, ((s.dropWhile f).reverse.takeWhile f).reverse, ?_, ?_, ?_⟩
  · have h1 : ((s.dropWhile f).reverse.dropWhile f).reverse
        ++ ((s.dropWhile f).reverse.takeWhile f).reverse = s.dropWhile f := by
      rw [← List.reverse_append, List.takeWhile_append_dropWhile, List.reverse_reverse]
    simp only [TrimFunc, TrimRightFunc, TrimLeftFunc, List.append_assoc]
    rw [h1, List.takeWhile_append_dropWhile]
  · intro c hc
    exact List.mem_takeWhile_imp hc
  · intro c hc
    exact List.mem_takeWhile_imp (List.mem_reverse.mp hc)

theorem dropWhile_head_not (f : Char → Bool) (s : List Char) (c : Char)
    (h : (s.dropWhile f).head? = some c) : f c = false := by
  have := List.head?_dropWhile_not f s
  rw [h] at this
  exact this

theorem TrimFunc_getLast (s : List Char) (f : Char → Bool) (c : Char)
    (h : (TrimFunc s f).getLast? = some c) : f c = false := by
  simp only [TrimFunc, TrimRightFunc, List.getLast?_reverse] at h
  exact dropWhile_head_not f _ c h

theorem TrimRightFunc_head (s : List Char) (f : Char → Bool) (c : Char)
    (h : (TrimRightFunc s f).head? = some c) : s.head? = some c := by
  have hs : s = TrimRightFunc s f ++ (s.reverse.takeWhile f).reverse := by
    simp only [TrimRightFunc]
    rw [← List.reverse_append, List.takeWhile_append_dropWhile, List.reverse_reverse]
  rw [hs]
  cases ht : TrimRightFunc s f with
  | nil => simp [ht] at h
  | cons a t => simpa [ht] using h

theorem TrimFunc_head (s : List Char) (f : Char → Bool) (c : Char)
    (h : (TrimFunc s f).head? = some c) : f c = false :=
  dropWhile_head_not f s c (TrimRightFunc_head _ f c h)

theorem TrimLeftFunc_fixed (s : List Char) (f : Char → Bool)
    (h : ∀ c, s.head? = some c → f c = false) : TrimLeftFunc s f = s := by
  cases s with
  | nil => rfl
  | cons a t =>
    have ha : f a = false := h a rfl
    simp [TrimLeftFunc, List.dropWhile_cons, ha]

theorem TrimRightFunc_fixed (s : List Char) (f : Char → Bool)
    (h : ∀ c, s.getLast? = some c → f c = false) : TrimRightFunc s f = s := by
  have h2 : TrimLeftFunc s.reverse f = s.reverse :=
    TrimLeftFunc_fixed s.reverse f (by simpa [List.head?_reverse] using h)
  simp only [TrimLeftFunc] at h2
  simp [TrimRightFunc, h2]

theorem TrimFunc_idem (s : List Char) (f : Char → Bool) :
    TrimFunc (TrimFunc s f) f = TrimFunc s f := by
  have h1 : TrimLeftFunc (TrimFunc s f) f = TrimFunc s f :=
    TrimLeftFunc_fixed _ f (TrimFunc_head s f)
  have h2 : TrimRightFunc (TrimFunc s f) f = TrimFunc s f :=
    TrimRightFunc_fixed _ f (TrimFunc_getLast s f)
  conv_lhs => rw [TrimFunc, h1, h2]

theorem HasSuffix_iff (s suffix : String) :
    HasSuffix s suffix = true ↔ suffix.data <:+ s.data := by
  simp only [HasSuffix, Bool.and_eq_true, decide_eq_true_eq]
  constructor
  · rintro ⟨_, h⟩
    exact List.suffix_iff_eq_drop.mpr h.symm
  · intro h
    exact ⟨h.length_le, (List.suffix_iff_eq_drop.mp h).symm⟩

theorem TrimSpace_TrimsTo (s : String) : TrimsTo s (TrimSpace s) := by
  refine ⟨TrimFunc_split s.data isSpace, TrimFunc_head s.data isSpace,
    TrimFunc_getLast s.data isSpace, ?_⟩
  rw [String.ext_iff]
  exact TrimFunc_idem s.data isSpace

/-! ## Lemmas on the rendering of integers -/

theorem digitVal_digitChar (d : Nat) (h : d < 10) : digitVal (Nat.digitChar d) = d := by
  interval_cases d <;> rfl

theorem toDigitsCore_acc (fuel : Nat) : ∀ (n : Nat) (ds : List Char),
    Nat.toDigitsCore 10 fuel n ds = Nat.toDigitsCore 10 fuel n [] ++ ds := by
  induction fuel with
  | zero => intro n ds; simp [Nat.toDigitsCore]
  | succ k ih =>
    intro n ds
    simp only [Nat.toDigitsCore]
    by_cases h : n / 10 = 0
    · simp [h]
    · simp only [h, if_false]
      rw [ih (n / 10) (Nat.digitChar (n % 10) :: ds), ih (n / 10) [Nat.digitChar (n % 10)]]
      simp

theorem decVal_concat (l : List Char) (c : Char) :
    decVal (l ++ [c]) = 10 * decVal l + digitVal c := by
  simp [decVal, List.foldl_append]

theorem decVal_toDigitsCore (fuel : Nat) : ∀ n : Nat, n < fuel →
    decVal (Nat.toDigitsCore 10 fuel n []) = n := by
  induction fuel with
  | zero => intro n h; omega
  | succ k ih =>
    intro n hn
    simp only [Nat.toDigitsCore]
    by_cases h : n / 10 = 0
    · simp only [h, if_true]
      have hm : n % 10 = n := by omega
      have hlt : n < 10 := by omega
      rw [hm]
      simp [decVal, digitVal_digitChar n hlt]
    · simp only [h, if_false]
      rw [toDigitsCore_acc, decVal_concat, ih (n / 10) (by omega),
        digitVal_digitChar _ (Nat.mod_lt _ (by decide))]
      omega

theorem decVal_repr (n : Nat) : decVal (Nat.repr n).data = n := by
  simp only [Nat.repr, Nat.toDigits, List.asString]
  exact decVal_toDigitsCore (n + 1) n (Nat.lt_succ_self n)

theorem fmtD_neg (r : Int) (hr : r < 0) :
    ∃ ds, (fmtD r).data = '-' :: ds ∧ decVal ds = r.natAbs := by
  cases r with
  | ofNat m => exact absurd hr (by simp)
  | negSucc m =>
    refine ⟨(Nat.repr (m + 1)).data, ?_, ?_⟩
    · simp [fmtD, String.data_append]
    · rw [decVal_repr]
      rfl

theorem digitChar_ne_minus (d : Nat) (h : d < 10) : Nat.digitChar d ≠ '-' := by
  interval_cases d <;> decide

theorem toDigitsCore_no_minus (fuel : Nat) : ∀ (n : Nat) (ds : List Char),
    '-' ∉ ds → '-' ∉ Nat.toDigitsCore 10 fuel n ds := by
  induction fuel with
  | zero => intro n ds h; simpa [Nat.toDigitsCore] using h
  | succ k ih =>
    intro n ds h
    have hc : '-' ∉ Nat.digitChar (n % 10) :: ds := by
      intro hm
      rcases List.mem_cons.mp hm with h1 | h1
      · exact digitChar_ne_minus _ (Nat.mod_lt _ (by decide)) h1.symm
      · exact h h1
    simp only [Nat.toDigitsCore]
    by_cases h0 : n / 10 = 0
    · simpa only [h0, if_true] using hc
    · simpa only [h0, if_false] using ih (n / 10) _ hc

theorem repr_no_minus (n : Nat) : '-' ∉ (Nat.repr n).data := by
  simp only [Nat.repr, Nat.toDigits, List.asString]
  exact toDigitsCore_no_minus (n + 1) n [] (by simp)

theorem repr_injective (m n : Nat) (h : (Nat.repr m).data = (Nat.repr n).data) : m = n := by
  have h2 := congrArg decVal h
  rwa [decVal_repr, decVal_repr] at h2

theorem fmtD_data_ofNat (m : Nat) : (fmtD (Int.ofNat m)).data = (Nat.repr m).data := rfl

theorem fmtD_data_negSucc (m : Nat) :
    (fmtD (Int.negSucc m)).data = '-' :: (Nat.repr (m + 1)).data := by
  simp [fmtD, String.data_append]

theorem fmtD_injective (a b : Int) (h : fmtD a = fmtD b) : a = b := by
  have hd : (fmtD a).data = (fmtD b).data := congrArg String.data h
  cases a with
  | ofNat m =>
    cases b with
    | ofNat n =>
      rw [fmtD_data_ofNat, fmtD_data_ofNat] at hd
      rw [repr_injective m n hd]
    | negSucc n =>
      rw [fmtD_data_ofNat, fmtD_data_negSucc] at hd
      exact absurd (hd ▸ List.mem_cons_self _ _) (repr_no_minus m)
  | negSucc m =>
    cases b with
    | ofNat n =>
      rw [fmtD_data_ofNat, fmtD_data_negSucc] at hd
      exact absurd (hd ▸ List.mem_cons_self _ _) (repr_no_minus n)
    | negSucc n =>
      rw [fmtD_data_negSucc, fmtD_data_negSucc] at hd
      have h2 : m + 1 = n + 1 := repr_injective _ _ (List.cons.inj hd).2
      have h3 : m = n := Nat.succ.inj h2
      rw [h3]

/-! ## Lemmas on `NewXMLPackage` -/

theorem Decodes_worldOf (xpkg : XMLPackage) (path : String) :
    Decodes (worldOf xpkg) path xpkg :=
  ⟨3, [], rfl, rfl, rfl⟩

theorem Decodes_unique (w : World) (path : String) (x y : XMLPackage)
    (hx : Decodes w path x) (hy : Decodes w path y) : x = y := by
  obtain ⟨fi, bs, h1, h2, h3⟩ := hx
  obtain ⟨fi', bs', h1', h2', h3'⟩ := hy
  rw [h1] at h1'
  cases h1'
  rw [h2] at h2'
  cases h2'
  rw [h3] at h3'
  cases h3'
  rfl

theorem NewXMLPackage_nil (w : World) (path : String) (xpkg : XMLPackage)
    (hd : Decodes w path xpkg) (hh : xpkg.History = []) :
    NewXMLPackage w path = .ret none (some (errorsNew "xml: Malformed pspec file")) := by
  obtain ⟨fi, bs, h1, h2, h3⟩ := hd
  simp [NewXMLPackage, h1, h2, h3, hh]

theorem NewXMLPackage_cons (w : World) (path : String) (xpkg : XMLPackage)
    (upd : XMLUpdate) (rest : List XMLUpdate)
    (hd : Decodes w path xpkg) (hh : xpkg.History = upd :: rest) :
    NewXMLPackage w path =
      if TrimSpace xpkg.Source.Name = "" then
        .ret none (some (errorsNew "xml: Missing name in package"))
      else if TrimSpace upd.Version = "" then
        .ret none (some (errorsNew "xml: Missing version in package"))
      else if upd.Release < 0 then
        .ret none (some (fmtErrorf "xml: Invalid release in package: " upd.Release))
      else
        .ret (some ⟨TrimSpace xpkg.Source.Name, TrimSpace upd.Version, upd.Release⟩) none := by
  obtain ⟨fi, bs, h1, h2, h3⟩ := hd
  simp [NewXMLPackage, h1, h2, h3, hh]

theorem NewXMLPackage_foreign (w : World) (path : String)
    (hd : ¬ ∃ xpkg, Decodes w path xpkg) :
    ∃ e, NewXMLPackage w path = .ret none (some (.foreign e)) := by
  cases h1 : w.Open path with
  | error e => exact ⟨e, by simp [NewXMLPackage, h1]⟩
  | ok fi =>
    cases h2 : w.ReadAll fi with
    | error e => exact ⟨e, by simp [NewXMLPackage, h1, h2]⟩
    | ok bs =>
      cases h3 : w.Unmarshal bs with
      | error e => exact ⟨e, by simp [NewXMLPackage, h1, h2, h3]⟩
      | ok xpkg => exact absurd ⟨xpkg, fi, bs, h1, h2, h3⟩ hd

theorem NewXMLPackage_success_shape (w : World) (path : String) (xpkg : XMLPackage)
    (p : Package) (hd : Decodes w path xpkg)
    (hs : NewXMLPackage w path = .ret (some p) none) :
    ∃ upd rest, xpkg.History = upd :: rest ∧
      p = ⟨TrimSpace xpkg.Source.Name, TrimSpace upd.Version, upd.Release⟩ := by
  cases hh : xpkg.History with
  | nil =>
    rw [NewXMLPackage_nil w path xpkg hd hh] at hs
    cases hs
  | cons upd rest =>
    refine ⟨upd, rest, rfl, ?_⟩
    rw [NewXMLPackage_cons w path xpkg upd rest hd hh] at hs
    by_cases hn : TrimSpace xpkg.Source.Name = ""
    · rw [if_pos hn] at hs
      cases hs
    · rw [if_neg hn] at hs
      by_cases hv : TrimSpace upd.Version = ""
      · rw [if_pos hv] at hs
        cases hs
      · rw [if_neg hv] at hs
        by_cases hr : upd.Release < 0
        · rw [if_pos hr] at hs
          cases hs
        · rw [if_neg hr] at hs
          cases hs
          rfl

theorem errorString_lead_ne (r : Int) :
    fmtErrorf "xml: Invalid release in package: " r ≠ errorsNew "ypkg: Not yet implemented" := by
  intro h
  have h2 := congrArg (fun e => e.Error.data.head?) h
  simp [fmtErrorf, errorsNew, GoError.Error, String.data_append] at h2

theorem NewXMLPackage_ne_unsupported (w : World) (path : String) (pkg : Option Package) :
    NewXMLPackage w path ≠ .ret pkg (some (errorsNew "ypkg: Not yet implemented")) := by
  intro h
  by_cases hd : ∃ xpkg, Decodes w path xpkg
  · obtain ⟨xpkg, hd⟩ := hd
    cases hh : xpkg.History with
    | nil =>
      rw [NewXMLPackage_nil w path xpkg hd hh] at h
      revert h
      simp [errorsNew]
    | cons upd rest =>
      rw [NewXMLPackage_cons w path xpkg upd rest hd hh] at h
      by_cases hn : TrimSpace xpkg.Source.Name = ""
      · rw [if_pos hn] at h
        revert h
        simp [errorsNew]
      · rw [if_neg hn] at h
        by_cases hv : TrimSpace upd.Version = ""
        · rw [if_pos hv] at h
          revert h
          simp [errorsNew]
        · rw [if_neg hv] at h
          by_cases hr : upd.Release < 0
          · rw [if_pos hr] at h
            injection h with _ h2
            injection h2 with h3
            exact errorString_lead_ne _ h3
          · rw [if_neg hr] at h
            cases h
  · obtain ⟨e, he⟩ := NewXMLPackage_foreign w path hd
    rw [he] at h
    cases h

theorem NewXMLPackage_cases (w : World) (path : String) :
    (∃ e, NewXMLPackage w path = .ret none (some (.foreign e))) ∨
    (∃ k : FailureKind, k ≠ .unsupportedFormat ∧
      NewXMLPackage w path = .ret none (some k.toError)) ∨
    (∃ p, NewXMLPackage w path = .ret (some p) none) := by
  by_cases hd : ∃ xpkg, Decodes w path xpkg
  · obtain ⟨xpkg, hd⟩ := hd
    cases hh : xpkg.History with
    | nil =>
      exact Or.inr (Or.inl ⟨.missingHistory, by decide, NewXMLPackage_nil w path xpkg hd hh⟩)
    | cons upd rest =>
      rw [NewXMLPackage_cons w path xpkg upd rest hd hh]
      by_cases hn : TrimSpace xpkg.Source.Name = ""
      · rw [if_pos hn]
        exact Or.inr (Or.inl ⟨.missingName, by decide, rfl⟩)
      · rw [if_neg hn]
        by_cases hv : TrimSpace upd.Version = ""
        · rw [if_pos hv]
          exact Or.inr (Or.inl ⟨.missingVersion, by decide, rfl⟩)
        · rw [if_neg hv]
          by_cases hr : upd.Release < 0
          · rw [if_pos hr]
            exact Or.inr (Or.inl ⟨.invalidRelease upd.Release, by simp, rfl⟩)
          · rw [if_neg hr]
            exact Or.inr (Or.inr ⟨_, rfl⟩)
  · exact Or.inl (NewXMLPackage_foreign w path hd)

theorem NewXMLPackage_returns (w : World) (path : String) :
    ∃ pkg err, NewXMLPackage w path = .ret pkg err := by
  rcases NewXMLPackage_cases w path with ⟨e, h⟩ | ⟨k, _, h⟩ | ⟨p, h⟩
  · exact ⟨_, _, h⟩
  · exact ⟨_, _, h⟩
  · exact ⟨_, _, h⟩

theorem index_zero_in_range (xpkg : XMLPackage) (h : ¬ xpkg.History.length < 1) :
    ∃ upd, xpkg.History[0]? = some upd := by
  cases hh : xpkg.History with
  | nil => simp [hh] at h
  | cons upd rest => exact ⟨upd, by simp⟩

/-! ## Lemmas on the failure messages -/

theorem invalid_release_message_sixth (r : Int) :
    ((fmtErrorf "xml: Invalid release in package: " r).Error.data.drop 5).head? = some 'I' := by
  simp [fmtErrorf, GoError.Error, String.data_append]

theorem invalid_release_message_injective (a b : Int)
    (h : (fmtErrorf "xml: Invalid release in package: " a).Error =
      (fmtErrorf "xml: Invalid release in package: " b).Error) : a = b := by
  have hd := congrArg String.data h
  simp only [fmtErrorf, GoError.Error, String.data_append] at hd
  exact fmtD_injective a b (String.ext (List.append_cancel_left hd))

theorem FailureKind_message_injective (k k' : FailureKind)
    (h : k.toError.Error = k'.toError.Error) : k = k' := by
  cases k <;> cases k' <;> first
    | rfl
    | (exfalso; revert h; decide)
    | (exfalso
       have h6 := congrArg (fun m => (m.data.drop 5).head?) h
       simp only [FailureKind.toError, invalid_release_message_sixth] at h6
       revert h6
       decide)
    | (rw [invalid_release_message_injective _ _ h])

theorem FailureKind_returned (k : FailureKind)
    (hk : ∀ r, k = .invalidRelease r → r < 0) :
    ∃ w path, NewPackage w path = .ret none (some k.toError) := by
  cases k with
  | missingHistory => exact ⟨worldOf (mkDoc "nano" []), "pspec.xml", by decide⟩
  | missingName => exact ⟨worldOf (mkDoc "" [mkUpdate 1 "1.0"]), "pspec.xml", by decide⟩
  | missingVersion => exact ⟨worldOf (mkDoc "nano" [mkUpdate 1 ""]), "pspec.xml", by decide⟩
  | unsupportedFormat => exact ⟨worldOf (mkDoc "nano" []), "package.yml", by decide⟩
  | invalidRelease r =>
    refine ⟨worldOf (mkDoc "nano" [mkUpdate r "1.0"]), "pspec.xml", ?_⟩
    have hs : HasSuffix "pspec.xml" ".xml" = true := by decide
    have hx := NewXMLPackage_cons (worldOf (mkDoc "nano" [mkUpdate r "1.0"])) "pspec.xml"
      (mkDoc "nano" [mkUpdate r "1.0"]) (mkUpdate r "1.0") [] (Decodes_worldOf _ _) rfl
    have hn : ¬ TrimSpace (mkDoc "nano" [mkUpdate r "1.0"]).Source.Name = "" := by
      have h0 : ¬ TrimSpace "nano" = "" := by decide
      exact h0
    have hv : ¬ TrimSpace (mkUpdate r "1.0").Version = "" := by
      have h0 : ¬ TrimSpace "1.0" = "" := by decide
      exact h0
    have hr : (mkUpdate r "1.0").Release < 0 := hk r rfl
    rw [if_neg hn, if_neg hv, if_pos hr] at hx
    simp only [NewPackage, if_pos hs]
    exact hx

theorem NewPackage_of_FailsWith (w : World) (path : String) (k : FailureKind)
    (hk : FailsWith w path k) : NewPackage w path = .ret none (some k.toError) := by
  cases k with
  | unsupportedFormat =>
    have hs : ¬ (HasSuffix path ".xml" = true) := fun hs => hk ((HasSuffix_iff _ _).mp hs)
    simp only [NewPackage, if_neg hs, NewYmlPackage, FailureKind.toError]
  | missingHistory =>
    obtain ⟨hx, xpkg, hd, hh⟩ := hk
    have hs : HasSuffix path ".xml" = true := (HasSuffix_iff _ _).mpr hx
    simp only [NewPackage, if_pos hs, FailureKind.toError]
    exact NewXMLPackage_nil w path xpkg hd hh
  | missingName =>
    obtain ⟨hx, xpkg, upd, rest, hd, hh, hb⟩ := hk
    have hs : HasSuffix path ".xml" = true := (HasSuffix_iff _ _).mpr hx
    simp only [NewPackage, if_pos hs, FailureKind.toError]
    rw [NewXMLPackage_cons w path xpkg upd rest hd hh,
      if_pos ((TrimSpace_eq_empty_iff _).mpr hb)]
  | missingVersion =>
    obtain ⟨hx, xpkg, upd, rest, hd, hh, hn, hb⟩ := hk
    have hs : HasSuffix path ".xml" = true := (HasSuffix_iff _ _).mpr hx
    simp only [NewPackage, if_pos hs, FailureKind.toError]
    rw [NewXMLPackage_cons w path xpkg upd rest hd hh,
      if_neg (fun h => hn ((TrimSpace_eq_empty_iff _).mp h)),
      if_pos ((TrimSpace_eq_empty_iff _).mpr hb)]
  | invalidRelease r =>
    obtain ⟨hx, xpkg, upd, rest, hd, hh, hn, hv, hr, hneg⟩ := hk
    have hs : HasSuffix path ".xml" = true := (HasSuffix_iff _ _).mpr hx
    have hlt : upd.Release < 0 := by rw [hr]; exact hneg
    simp only [NewPackage, if_pos hs, FailureKind.toError]
    rw [NewXMLPackage_cons w path xpkg upd rest hd hh,
      if_neg (fun h => hn ((TrimSpace_eq_empty_iff _).mp h)),
      if_neg (fun h => hv ((TrimSpace_eq_empty_iff _).mp h)),
      if_pos hlt, hr]

/-! ## The claims -/

/-- C1: when the file decodes to a document whose history has a first entry,
whose source name and first-entry version are not empty after trimming and
whose first-entry release is not negative, `NewXMLPackage` returns, with a nil
error, exactly the record made of the trimmed source name, the trimmed
first-entry version and the first-entry release. -/
theorem NewXMLPackage_valid_document (w : World) (path : String) (xpkg : XMLPackage)
    (upd : XMLUpdate) (rest : List XMLUpdate)
    (hd : Decodes w path xpkg) (hh : xpkg.History = upd :: rest)
    (hn : TrimSpace xpkg.Source.Name ≠ "") (hv : TrimSpace upd.Version ≠ "")
    (hr : 0 ≤ upd.Release) :
    NewXMLPackage w path =
      .ret (some { Name := TrimSpace xpkg.Source.Name
                   Version := TrimSpace upd.Version
                   Release := upd.Release }) none := by
  rw [NewXMLPackage_cons w path xpkg upd rest hd hh, if_neg hn, if_neg hv,
    if_neg (not_lt.mpr hr)]

/-- The scenario of C1: source name "nano" and one update with release 3 and
version "2.4" give the record nano, 2.4, 3. -/
theorem NewXMLPackage_valid_document_witness :
    NewXMLPackage (worldOf (mkDoc "nano" [mkUpdate 3 "2.4"])) "pspec.xml" =
      .ret (some { Name := "nano", Version := "2.4", Release := 3 }) none :=
  NewXMLPackage_valid_document (worldOf (mkDoc "nano" [mkUpdate 3 "2.4"])) "pspec.xml"
    (mkDoc "nano" [mkUpdate 3 "2.4"]) (mkUpdate 3 "2.4") []
    (Decodes_worldOf _ _) rfl (by decide) (by decide) (by decide)

/-- C2: every call of `NewXMLPackage`, and every call of `NewPackage`, ends
all-or-nothing: it returns either a record with a non-empty name, a non-empty
version and a release that is not negative, together with a nil error, or a nil
record together with an error. -/
theorem NewPackage_all_or_nothing (w : World) (path : String) :
    AllOrNothing (NewXMLPackage w path) ∧ AllOrNothing (NewPackage w path) := by
  have hx : AllOrNothing (NewXMLPackage w path) := by
    by_cases hd : ∃ xpkg, Decodes w path xpkg
    · obtain ⟨xpkg, hd⟩ := hd
      cases hh : xpkg.History with
      | nil => exact Or.inr ⟨_, NewXMLPackage_nil w path xpkg hd hh⟩
      | cons upd rest =>
        rw [NewXMLPackage_cons w path xpkg upd rest hd hh]
        by_cases hn : TrimSpace xpkg.Source.Name = ""
        · rw [if_pos hn]
          exact Or.inr ⟨_, rfl⟩
        · rw [if_neg hn]
          by_cases hv : TrimSpace upd.Version = ""
          · rw [if_pos hv]
            exact Or.inr ⟨_, rfl⟩
          · rw [if_neg hv]
            by_cases hr : upd.Release < 0
            · rw [if_pos hr]
              exact Or.inr ⟨_, rfl⟩
            · rw [if_neg hr]
              exact Or.inl ⟨_, rfl, hn, hv, not_lt.mp hr⟩
    · obtain ⟨e, he⟩ := NewXMLPackage_foreign w path hd
      exact Or.inr ⟨_, he⟩
  refine ⟨hx, ?_⟩
  unfold NewPackage
  by_cases hs : HasSuffix path ".xml" = true
  · rw [if_pos hs]
    exact hx
  · rw [if_neg hs]
    exact Or.inr ⟨_, rfl⟩

/-- C3: when the file decodes to a document whose history has zero entries,
`NewXMLPackage` fails with the missing-history failure, whatever the other
fields of the document hold. -/
theorem NewXMLPackage_empty_history (w : World) (path : String) (xpkg : XMLPackage)
    (hd : Decodes w path xpkg) (hh : xpkg.History.length = 0) :
    NewXMLPackage w path = .ret none (some (errorsNew "xml: Malformed pspec file")) :=
  NewXMLPackage_nil w path xpkg hd (List.length_eq_zero.mp hh)

/-- The scenario of C3 with an all-whitespace source name and an empty
history. -/
theorem NewXMLPackage_empty_history_witness :
    NewXMLPackage (worldOf (mkDoc "  " [])) "pspec.xml" =
      .ret none (some (errorsNew "xml: Malformed pspec file")) :=
  NewXMLPackage_empty_history (worldOf (mkDoc "  " [])) "pspec.xml" (mkDoc "  " [])
    (Decodes_worldOf _ _) (by decide)

/-- C4 as stated fails: a document with an empty source name and an empty
history decodes, and `NewXMLPackage` reports the missing-history failure, not
the missing-name failure. -/
theorem NewXMLPackage_blank_name_counterexample :
    Blank (mkDoc "" []).Source.Name ∧
    Decodes (worldOf (mkDoc "" [])) "pspec.xml" (mkDoc "" []) ∧
    NewXMLPackage (worldOf (mkDoc "" [])) "pspec.xml" =
      .ret none (some (errorsNew "xml: Malformed pspec file")) ∧
    NewXMLPackage (worldOf (mkDoc "" [])) "pspec.xml" ≠
      .ret none (some (errorsNew "xml: Missing name in package")) :=
  ⟨by decide, Decodes_worldOf _ _, by decide, by decide⟩

/-- C4, amended: when the file decodes to a document whose history has a first
entry and whose source name is empty or all whitespace, `NewXMLPackage` fails
with the missing-name failure. -/
theorem NewXMLPackage_blank_name (w : World) (path : String) (xpkg : XMLPackage)
    (upd : XMLUpdate) (rest : List XMLUpdate)
    (hd : Decodes w path xpkg) (hh : xpkg.History = upd :: rest)
    (hb : Blank xpkg.Source.Name) :
    NewXMLPackage w path = .ret none (some (errorsNew "xml: Missing name in package")) := by
  rw [NewXMLPackage_cons w path xpkg upd rest hd hh,
    if_pos ((TrimSpace_eq_empty_iff _).mpr hb)]

/-- The amended C4 on a document whose source name is two spaces and a tab. -/
theorem NewXMLPackage_blank_name_witness :
    NewXMLPackage (worldOf (mkDoc "  \t" [mkUpdate 1 "1.0"])) "pspec.xml" =
      .ret none (some (errorsNew "xml: Missing name in package")) :=
  NewXMLPackage_blank_name (worldOf (mkDoc "  \t" [mkUpdate 1 "1.0"])) "pspec.xml"
    (mkDoc "  \t" [mkUpdate 1 "1.0"]) (mkUpdate 1 "1.0") []
    (Decodes_worldOf _ _) rfl (by decide)

/-- C5 as stated fails: a document whose first entry has an empty version and
whose source name is empty as well decodes, and `NewXMLPackage` reports the
missing-name failure, not the missing-version failure. -/
theorem NewXMLPackage_blank_version_counterexample :
    (mkDoc "" [mkUpdate 1 ""]).History = [mkUpdate 1 ""] ∧
    Blank (mkUpdate 1 "").Version ∧
    Decodes (worldOf (mkDoc "" [mkUpdate 1 ""])) "pspec.xml" (mkDoc "" [mkUpdate 1 ""]) ∧
    NewXMLPackage (worldOf (mkDoc "" [mkUpdate 1 ""])) "pspec.xml" =
      .ret none (some (errorsNew "xml: Missing name in package")) ∧
    NewXMLPackage (worldOf (mkDoc "" [mkUpdate 1 ""])) "pspec.xml" ≠
      .ret none (some (errorsNew "xml: Missing version in package")) :=
  ⟨rfl, by decide, Decodes_worldOf _ _, by decide, by decide⟩

/-- C5, amended: when the file decodes to a document whose source name is not
empty after trimming and whose first history entry has a version that is empty
or all whitespace, `NewXMLPackage` fails with the missing-version failure. -/
theorem NewXMLPackage_blank_version (w : World) (path : String) (xpkg : XMLPackage)
    (upd : XMLUpdate) (rest : List XMLUpdate)
    (hd : Decodes w path xpkg) (hh : xpkg.History = upd :: rest)
    (hn : TrimSpace xpkg.Source.Name ≠ "") (hb : Blank upd.Version) :
    NewXMLPackage w path = .ret none (some (errorsNew "xml: Missing version in package")) := by
  rw [NewXMLPackage_cons w path xpkg upd rest hd hh, if_neg hn,
    if_pos ((TrimSpace_eq_empty_iff _).mpr hb)]

/-- The amended C5 on a document named "nano" whose first entry has a version
of one space. -/
theorem NewXMLPackage_blank_version_witness :
    NewXMLPackage (worldOf (mkDoc "nano" [mkUpdate 1 " "])) "pspec.xml" =
      .ret none (some (errorsNew "xml: Missing version in package")) :=
  NewXMLPackage_blank_version (worldOf (mkDoc "nano" [mkUpdate 1 " "])) "pspec.xml"
    (mkDoc "nano" [mkUpdate 1 " "]) (mkUpdate 1 " ") []
    (Decodes_worldOf _ _) rfl (by decide) (by decide)

/-- C6 as stated fails: a document whose first entry has release -1 decodes,
and `NewXMLPackage` reports the missing-name failure when the source name is
empty, and the missing-version failure when the first-entry version is empty,
not the invalid-release failure. -/
theorem NewXMLPackage_negative_release_counterexample :
    ((mkUpdate (-1) "1.0").Release < 0 ∧
      Decodes (worldOf (mkDoc "" [mkUpdate (-1) "1.0"])) "pspec.xml"
        (mkDoc "" [mkUpdate (-1) "1.0"]) ∧
      NewXMLPackage (worldOf (mkDoc "" [mkUpdate (-1) "1.0"])) "pspec.xml" =
        .ret none (some (errorsNew "xml: Missing name in package")) ∧
      NewXMLPackage (worldOf (mkDoc "" [mkUpdate (-1) "1.0"])) "pspec.xml" ≠
        .ret none (some (fmtErrorf "xml: Invalid release in package: " (-1)))) ∧
    ((mkUpdate (-1) "").Release < 0 ∧
      Decodes (worldOf (mkDoc "nano" [mkUpdate (-1) ""])) "pspec.xml"
        (mkDoc "nano" [mkUpdate (-1) ""]) ∧
      NewXMLPackage (worldOf (mkDoc "nano" [mkUpdate (-1) ""])) "pspec.xml" =
        .ret none (some (errorsNew "xml: Missing version in package")) ∧
      NewXMLPackage (worldOf (mkDoc "nano" [mkUpdate (-1) ""])) "pspec.xml" ≠
        .ret none (some (fmtErrorf "xml: Invalid release in package: " (-1)))) :=
  ⟨⟨by decide, Decodes_worldOf _ _, by decide, by decide⟩,
    ⟨by decide, Decodes_worldOf _ _, by decide, by decide⟩⟩

/-- C6, amended: when the file decodes to a document whose source name and
first-entry version are not empty after trimming and whose first-entry release
is negative, `NewXMLPackage` fails with the invalid-release failure; the message
of the failure is the fixed text followed by the rendering of the release, so it
contains that rendering, which is a minus sign followed by the decimal digits of
the magnitude of the release. -/
theorem NewXMLPackage_negative_release (w : World) (path : String) (xpkg : XMLPackage)
    (upd : XMLUpdate) (rest : List XMLUpdate)
    (hd : Decodes w path xpkg) (hh : xpkg.History = upd :: rest)
    (hn : TrimSpace xpkg.Source.Name ≠ "") (hv : TrimSpace upd.Version ≠ "")
    (hr : upd.Release < 0) :
    ∃ e, NewXMLPackage w path = .ret none (some e) ∧
      e = fmtErrorf "xml: Invalid release in package: " upd.Release ∧
      e.Error = "xml: Invalid release in package: " ++ fmtD upd.Release ∧
      (fmtD upd.Release).data <:+: e.Error.data ∧
      ∃ ds, (fmtD upd.Release).data = '-' :: ds ∧ decVal ds = upd.Release.natAbs := by
  refine ⟨fmtErrorf "xml: Invalid release in package: " upd.Release, ?_, rfl, rfl, ?_,
    fmtD_neg upd.Release hr⟩
  · rw [NewXMLPackage_cons w path xpkg upd rest hd hh, if_neg hn, if_neg hv, if_pos hr]
  · exact ⟨"xml: Invalid release in package: ".data, [], by
      simp [fmtErrorf, GoError.Error, String.data_append]⟩

/-- The amended C6 on a document named "nano" whose first entry has release -3
and version "2.4": the message is "xml: Invalid release in package: -3". -/
theorem NewXMLPackage_negative_release_witness :
    ∃ e, NewXMLPackage (worldOf (mkDoc "nano" [mkUpdate (-3) "2.4"])) "pspec.xml" =
        .ret none (some e) ∧
      e = fmtErrorf "xml: Invalid release in package: " (-3) ∧
      e.Error = "xml: Invalid release in package: " ++ fmtD (-3) ∧
      (fmtD (-3)).data <:+: e.Error.data ∧
      ∃ ds, (fmtD (-3)).data = '-' :: ds ∧ decVal ds = 3 :=
  NewXMLPackage_negative_release (worldOf (mkDoc "nano" [mkUpdate (-3) "2.4"])) "pspec.xml"
    (mkDoc "nano" [mkUpdate (-3) "2.4"]) (mkUpdate (-3) "2.4") []
    (Decodes_worldOf _ _) rfl (by decide) (by decide) (by decide)

/-- C7: the outcome of `NewXMLPackage` depends on the history only through its
first entry: two decoded documents with the same source name and the same first
history entry give equal outcomes, whatever entries follow, and a returned
record carries the trimmed version and the release of the first entry. -/
theorem NewXMLPackage_first_entry (w₁ w₂ : World) (path₁ path₂ : String)
    (x₁ x₂ : XMLPackage) (upd : XMLUpdate) (rest₁ rest₂ : List XMLUpdate)
    (hd₁ : Decodes w₁ path₁ x₁) (hd₂ : Decodes w₂ path₂ x₂)
    (hn : x₁.Source.Name = x₂.Source.Name)
    (hh₁ : x₁.History = upd :: rest₁) (hh₂ : x₂.History = upd :: rest₂) :
    NewXMLPackage w₁ path₁ = NewXMLPackage w₂ path₂ ∧
    ∀ p, NewXMLPackage w₁ path₁ = .ret (some p) none →
      p.Version = TrimSpace upd.Version ∧ p.Release = upd.Release := by
  constructor
  · rw [NewXMLPackage_cons w₁ path₁ x₁ upd rest₁ hd₁ hh₁,
      NewXMLPackage_cons w₂ path₂ x₂ upd rest₂ hd₂ hh₂, hn]
  · intro p hs
    obtain ⟨upd', rest', hh', hp⟩ := NewXMLPackage_success_shape w₁ path₁ x₁ p hd₁ hs
    rw [hh₁] at hh'
    cases hh'
    rw [hp]
    exact ⟨rfl, rfl⟩

/-- The scenario of C7: the entries release 5, version "2.0" and release 4,
version "1.9", in this order, give the same outcome as the first entry alone,
which is release 5 and version "2.0". -/
theorem NewXMLPackage_first_entry_witness :
    (NewXMLPackage (worldOf (mkDoc "nano" [mkUpdate 5 "2.0", mkUpdate 4 "1.9"])) "pspec.xml" =
        NewXMLPackage (worldOf (mkDoc "nano" [mkUpdate 5 "2.0"])) "pspec.xml" ∧
      ∀ p, NewXMLPackage (worldOf (mkDoc "nano" [mkUpdate 5 "2.0", mkUpdate 4 "1.9"]))
          "pspec.xml" = .ret (some p) none →
        p.Version = TrimSpace "2.0" ∧ p.Release = 5) ∧
    NewXMLPackage (worldOf (mkDoc "nano" [mkUpdate 5 "2.0", mkUpdate 4 "1.9"])) "pspec.xml" =
      .ret (some { Name := "nano", Version := "2.0", Release := 5 }) none :=
  ⟨NewXMLPackage_first_entry
      (worldOf (mkDoc "nano" [mkUpdate 5 "2.0", mkUpdate 4 "1.9"]))
      (worldOf (mkDoc "nano" [mkUpdate 5 "2.0"])) "pspec.xml" "pspec.xml"
      (mkDoc "nano" [mkUpdate 5 "2.0", mkUpdate 4 "1.9"]) (mkDoc "nano" [mkUpdate 5 "2.0"])
      (mkUpdate 5 "2.0") [mkUpdate 4 "1.9"] []
      (Decodes_worldOf _ _) (Decodes_worldOf _ _) rfl rfl rfl,
    by decide⟩

/-- C8: for a path that does not end in ".xml", `NewPackage` returns a nil
record and the unsupported-format failure, and it does so in every world: the
outcome does not depend on the file system. -/
theorem NewPackage_other_suffix (w w' : World) (path : String)
    (h : ¬ (".xml".data <:+ path.data)) :
    NewPackage w path = .ret none (some (errorsNew "ypkg: Not yet implemented")) ∧
    NewPackage w' path = NewPackage w path := by
  have hs : ¬ (HasSuffix path ".xml" = true) := fun hs => h ((HasSuffix_iff _ _).mp hs)
  simp only [NewPackage, if_neg hs, NewYmlPackage, and_self]

/-- The scenarios of C8: the paths "build.yml", "" and "pspec.XML", in a world
where every file decodes to a valid document and in another world. -/
theorem NewPackage_other_suffix_witness :
    (NewPackage (worldOf (mkDoc "nano" [mkUpdate 3 "2.4"])) "build.yml" =
        .ret none (some (errorsNew "ypkg: Not yet implemented")) ∧
      NewPackage (worldOf (mkDoc "" [])) "build.yml" =
        NewPackage (worldOf (mkDoc "nano" [mkUpdate 3 "2.4"])) "build.yml") ∧
    (NewPackage (worldOf (mkDoc "nano" [mkUpdate 3 "2.4"])) "" =
        .ret none (some (errorsNew "ypkg: Not yet implemented")) ∧
      NewPackage (worldOf (mkDoc "" [])) "" =
        NewPackage (worldOf (mkDoc "nano" [mkUpdate 3 "2.4"])) "") ∧
    (NewPackage (worldOf (mkDoc "nano" [mkUpdate 3 "2.4"])) "pspec.XML" =
        .ret none (some (errorsNew "ypkg: Not yet implemented")) ∧
      NewPackage (worldOf (mkDoc "" [])) "pspec.XML" =
        NewPackage (worldOf (mkDoc "nano" [mkUpdate 3 "2.4"])) "pspec.XML") :=
  ⟨NewPackage_other_suffix _ _ "build.yml"
      (fun h => absurd ((HasSuffix_iff "build.yml" ".xml").mpr h) (by decide)),
    NewPackage_other_suffix _ _ ""
      (fun h => absurd ((HasSuffix_iff "" ".xml").mpr h) (by decide)),
    NewPackage_other_suffix _ _ "pspec.XML"
      (fun h => absurd ((HasSuffix_iff "pspec.XML" ".xml").mpr h) (by decide))⟩

/-- C9: for a path that ends in ".xml", `NewPackage` returns exactly what
`NewXMLPackage` returns for that path, in every world, and the outcome is never
the unsupported-format failure. -/
theorem NewPackage_xml_suffix (w : World) (path : String)
    (h : ".xml".data <:+ path.data) :
    NewPackage w path = NewXMLPackage w path ∧
    ∀ pkg, NewPackage w path ≠ .ret pkg (some (errorsNew "ypkg: Not yet implemented")) := by
  have hs : HasSuffix path ".xml" = true := (HasSuffix_iff _ _).mpr h
  have he : NewPackage w path = NewXMLPackage w path := by
    simp only [NewPackage, if_pos hs]
  refine ⟨he, fun pkg => ?_⟩
  rw [he]
  exact NewXMLPackage_ne_unsupported w path pkg

/-- The scenario of C9 on the path "pspec.xml" in a world where the file decodes
to the document named "nano" with release 3 and version "2.4". -/
theorem NewPackage_xml_suffix_witness :
    (NewPackage (worldOf (mkDoc "nano" [mkUpdate 3 "2.4"])) "pspec.xml" =
        NewXMLPackage (worldOf (mkDoc "nano" [mkUpdate 3 "2.4"])) "pspec.xml" ∧
      ∀ pkg, NewPackage (worldOf (mkDoc "nano" [mkUpdate 3 "2.4"])) "pspec.xml" ≠
        .ret pkg (some (errorsNew "ypkg: Not yet implemented"))) ∧
    NewPackage (worldOf (mkDoc "nano" [mkUpdate 3 "2.4"])) "pspec.xml" =
      .ret (some { Name := "nano", Version := "2.4", Release := 3 }) none :=
  ⟨NewPackage_xml_suffix (worldOf (mkDoc "nano" [mkUpdate 3 "2.4"])) "pspec.xml"
      ((HasSuffix_iff "pspec.xml" ".xml").mp (by decide)),
    by decide⟩

/-- C10: on success, the name and the version of the returned record are the
source name and the first-entry version of the decoded document with the
leading and trailing white space removed and the rest unchanged: neither begins
or ends with white space, and trimming them again changes nothing. -/
theorem NewXMLPackage_trimmed (w : World) (path : String) (xpkg : XMLPackage)
    (p : Package) (hd : Decodes w path xpkg)
    (hs : NewXMLPackage w path = .ret (some p) none) :
    ∃ upd rest, xpkg.History = upd :: rest ∧
      p.Name = TrimSpace xpkg.Source.Name ∧ p.Version = TrimSpace upd.Version ∧
      TrimsTo xpkg.Source.Name p.Name ∧ TrimsTo upd.Version p.Version := by
  obtain ⟨upd, rest, hh, hp⟩ := NewXMLPackage_success_shape w path xpkg p hd hs
  refine ⟨upd, rest, hh, ?_, ?_, ?_, ?_⟩
  · rw [hp]
  · rw [hp]
  · rw [hp]
    exact TrimSpace_TrimsTo _
  · rw [hp]
    exact TrimSpace_TrimsTo _

/-- The scenario of C10: the source name "  foo  " and the version "  1.0  " give
the name "foo" and the version "1.0". -/
theorem NewXMLPackage_trimmed_witness :
    NewXMLPackage (worldOf (mkDoc "  foo  " [mkUpdate 1 "  1.0  "])) "pspec.xml" =
      .ret (some { Name := "foo", Version := "1.0", Release := 1 }) none ∧
    ∃ upd rest, (mkDoc "  foo  " [mkUpdate 1 "  1.0  "]).History = upd :: rest ∧
      "foo" = TrimSpace "  foo  " ∧ "1.0" = TrimSpace upd.Version ∧
      TrimsTo "  foo  " "foo" ∧ TrimsTo upd.Version "1.0" :=
  ⟨by decide,
    NewXMLPackage_trimmed (worldOf (mkDoc "  foo  " [mkUpdate 1 "  1.0  "])) "pspec.xml"
      (mkDoc "  foo  " [mkUpdate 1 "  1.0  "]) { Name := "foo", Version := "1.0", Release := 1 }
      (Decodes_worldOf _ _) (by decide)⟩

/-- C11: the checks run in the order history, name, version, release, and the
first violated one decides the failure.  When the file decodes, an empty history
gives the missing-history failure; with a first history entry, an empty trimmed
source name gives the missing-name failure; otherwise an empty trimmed
first-entry version gives the missing-version failure; otherwise a negative
first-entry release gives the invalid-release failure; otherwise the call
succeeds with the record. -/
theorem NewXMLPackage_check_order (w : World) (path : String) (xpkg : XMLPackage)
    (hd : Decodes w path xpkg) :
    (xpkg.History = [] →
      NewXMLPackage w path = .ret none (some (errorsNew "xml: Malformed pspec file"))) ∧
    ∀ upd rest, xpkg.History = upd :: rest →
      (TrimSpace xpkg.Source.Name = "" →
        NewXMLPackage w path = .ret none (some (errorsNew "xml: Missing name in package"))) ∧
      (TrimSpace xpkg.Source.Name ≠ "" → TrimSpace upd.Version = "" →
        NewXMLPackage w path =
          .ret none (some (errorsNew "xml: Missing version in package"))) ∧
      (TrimSpace xpkg.Source.Name ≠ "" → TrimSpace upd.Version ≠ "" → upd.Release < 0 →
        NewXMLPackage w path =
          .ret none (some (fmtErrorf "xml: Invalid release in package: " upd.Release))) ∧
      (TrimSpace xpkg.Source.Name ≠ "" → TrimSpace upd.Version ≠ "" → 0 ≤ upd.Release →
        NewXMLPackage w path =
          .ret (some { Name := TrimSpace xpkg.Source.Name
                       Version := TrimSpace upd.Version
                       Release := upd.Release }) none) := by
  refine ⟨fun hh => NewXMLPackage_nil w path xpkg hd hh, fun upd rest hh => ?_⟩
  rw [NewXMLPackage_cons w path xpkg upd rest hd hh]
  refine ⟨fun hn => ?_, fun hn hv => ?_, fun hn hv hr => ?_, fun hn hv hr => ?_⟩
  · rw [if_pos hn]
  · rw [if_neg hn, if_pos hv]
  · rw [if_neg hn, if_neg hv, if_pos hr]
  · rw [if_neg hn, if_neg hv, if_neg (not_lt.mpr hr)]

/-- The scenario of C11: a document with an empty source name whose first entry
has an empty version and release -1 reports the missing-name failure. -/
theorem NewXMLPackage_check_order_witness :
    NewXMLPackage (worldOf (mkDoc "" [mkUpdate (-1) ""])) "pspec.xml" =
      .ret none (some (errorsNew "xml: Missing name in package")) :=
  ((NewXMLPackage_check_order (worldOf (mkDoc "" [mkUpdate (-1) ""])) "pspec.xml"
      (mkDoc "" [mkUpdate (-1) ""]) (Decodes_worldOf _ _)).2
    (mkUpdate (-1) "") [] rfl).1 (by decide)

/-- C12: the failures that pkg.go creates are told apart by their messages: when
two calls of `NewPackage` meet the conditions of two different kinds of failure,
among missing-history, missing-name, missing-version, unsupported-format and
invalid-release with its negative release value, both calls return a nil record
and an error, and the messages of the two errors are different strings; in
particular the invalid-release messages of two different release values
differ. -/
theorem failure_messages_distinct (w w' : World) (path path' : String)
    (k k' : FailureKind) (hk : FailsWith w path k) (hk' : FailsWith w' path' k')
    (h : k ≠ k') :
    ∃ e e', NewPackage w path = .ret none (some e) ∧
      NewPackage w' path' = .ret none (some e') ∧ e.Error ≠ e'.Error :=
  ⟨k.toError, k'.toError, NewPackage_of_FailsWith w path k hk,
    NewPackage_of_FailsWith w' path' k' hk',
    fun he => h (FailureKind_message_injective k k' he)⟩

/-- The scenarios of C12: documents named "nano" with version "1.0" and the
releases -1 and -2 give the messages "xml: Invalid release in package: -1" and
"xml: Invalid release in package: -2"; a document with an empty history and the
path "package.yml" give "xml: Malformed pspec file" and
"ypkg: Not yet implemented". -/
theorem failure_messages_distinct_witness :
    (∃ e e', NewPackage (worldOf (mkDoc "nano" [mkUpdate (-1) "1.0"])) "pspec.xml" =
        .ret none (some e) ∧
      NewPackage (worldOf (mkDoc "nano" [mkUpdate (-2) "1.0"])) "pspec.xml" =
        .ret none (some e') ∧ e.Error ≠ e'.Error) ∧
    (∃ e e', NewPackage (worldOf (mkDoc "nano" [])) "pspec.xml" = .ret none (some e) ∧
      NewPackage (worldOf (mkDoc "nano" [])) "package.yml" = .ret none (some e') ∧
      e.Error ≠ e'.Error) ∧
    NewPackage (worldOf (mkDoc "nano" [mkUpdate (-1) "1.0"])) "pspec.xml" =
      .ret none (some (.errorString "xml: Invalid release in package: -1")) ∧
    NewPackage (worldOf (mkDoc "nano" [mkUpdate (-2) "1.0"])) "pspec.xml" =
      .ret none (some (.errorString "xml: Invalid release in package: -2")) ∧
    NewPackage (worldOf (mkDoc "nano" [])) "pspec.xml" =
      .ret none (some (.errorString "xml: Malformed pspec file")) ∧
    NewPackage (worldOf (mkDoc "nano" [])) "package.yml" =
      .ret none (some (.errorString "ypkg: Not yet implemented")) :=
  ⟨failure_messages_distinct
      (worldOf (mkDoc "nano" [mkUpdate (-1) "1.0"]))
      (worldOf (mkDoc "nano" [mkUpdate (-2) "1.0"])) "pspec.xml" "pspec.xml"
      (.invalidRelease (-1)) (.invalidRelease (-2))
      ⟨(HasSuffix_iff "pspec.xml" ".xml").mp (by decide), mkDoc "nano" [mkUpdate (-1) "1.0"],
        mkUpdate (-1) "1.0", [], Decodes_worldOf _ _, rfl, by decide, by decide, rfl,
        by decide⟩
      ⟨(HasSuffix_iff "pspec.xml" ".xml").mp (by decide), mkDoc "nano" [mkUpdate (-2) "1.0"],
        mkUpdate (-2) "1.0", [], Decodes_worldOf _ _, rfl, by decide, by decide, rfl,
        by decide⟩
      (by decide),
    failure_messages_distinct
      (worldOf (mkDoc "nano" [])) (worldOf (mkDoc "nano" [])) "pspec.xml" "package.yml"
      .missingHistory .unsupportedFormat
      ⟨(HasSuffix_iff "pspec.xml" ".xml").mp (by decide), mkDoc "nano" [],
        Decodes_worldOf _ _, rfl⟩
      (fun hx => absurd ((HasSuffix_iff "package.yml" ".xml").mpr hx) (by decide))
      (by decide),
    by decide, by decide, by decide, by decide⟩

/-- C13: the outcome of `NewXMLPackage` depends on the decoded document only
through the source name and the version and release of the first history entry:
two decoded documents with a first history entry that agree on these three
values give equal outcomes, whatever the homepage, the top-level name, and the
date, comment, author name and email of the entry are; a returned record has the
trimmed source name as its name. -/
theorem NewXMLPackage_three_fields (w₁ w₂ : World) (path₁ path₂ : String)
    (x₁ x₂ : XMLPackage) (u₁ u₂ : XMLUpdate) (rest₁ rest₂ : List XMLUpdate)
    (hd₁ : Decodes w₁ path₁ x₁) (hd₂ : Decodes w₂ path₂ x₂)
    (hh₁ : x₁.History = u₁ :: rest₁) (hh₂ : x₂.History = u₂ :: rest₂)
    (hn : x₁.Source.Name = x₂.Source.Name)
    (hv : u₁.Version = u₂.Version) (hr : u₁.Release = u₂.Release) :
    NewXMLPackage w₁ path₁ = NewXMLPackage w₂ path₂ ∧
    ∀ p, NewXMLPackage w₁ path₁ = .ret (some p) none →
      p.Name = TrimSpace x₁.Source.Name := by
  constructor
  · rw [NewXMLPackage_cons w₁ path₁ x₁ u₁ rest₁ hd₁ hh₁,
      NewXMLPackage_cons w₂ path₂ x₂ u₂ rest₂ hd₂ hh₂, hn, hv, hr]
  · intro p hs
    obtain ⟨upd, rest, _, hp⟩ := NewXMLPackage_success_shape w₁ path₁ x₁ p hd₁ hs
    rw [hp]

/-- The scenario of C13: two documents with source name "nano", version "2.4"
and release 3 that differ in the top-level name, the homepage and the date,
comment, author name and email of the entry give the same outcome, the record
nano, 2.4, 3. -/
theorem NewXMLPackage_three_fields_witness :
    (NewXMLPackage
        (worldOf (mkFullDoc "toplevel" "https://example.org" "nano"
          { Release := 3, Date := "2016-01-01", Version := "2.4", Comment := "first",
            Name := "Alice", Email := "alice@example.org" })) "pspec.xml" =
      NewXMLPackage
        (worldOf (mkFullDoc "other" "" "nano"
          { Release := 3, Date := "", Version := "2.4", Comment := "",
            Name := "Bob", Email := "" })) "pspec.xml" ∧
      ∀ p, NewXMLPackage
        (worldOf (mkFullDoc "toplevel" "https://example.org" "nano"
          { Release := 3, Date := "2016-01-01", Version := "2.4", Comment := "first",
            Name := "Alice", Email := "alice@example.org" })) "pspec.xml" =
          .ret (some p) none →
        p.Name = TrimSpace "nano") ∧
    NewXMLPackage
        (worldOf (mkFullDoc "toplevel" "https://example.org" "nano"
          { Release := 3, Date := "2016-01-01", Version := "2.4", Comment := "first",
            Name := "Alice", Email := "alice@example.org" })) "pspec.xml" =
      .ret (some { Name := "nano", Version := "2.4", Release := 3 }) none :=
  ⟨NewXMLPackage_three_fields _ _ "pspec.xml" "pspec.xml"
      (mkFullDoc "toplevel" "https://example.org" "nano"
        { Release := 3, Date := "2016-01-01", Version := "2.4", Comment := "first",
          Name := "Alice", Email := "alice@example.org" })
      (mkFullDoc "other" "" "nano"
        { Release := 3, Date := "", Version := "2.4", Comment := "",
          Name := "Bob", Email := "" })
      _ _ [] [] (Decodes_worldOf _ _) (Decodes_worldOf _ _) rfl rfl rfl rfl rfl,
    by decide⟩

/-- C14 as stated fails: for a document with an empty history the error that
`NewXMLPackage` returns has the message "xml: Malformed pspec file", which is
not "malformed pspec: missing history". -/
theorem NewXMLPackage_history_message_counterexample :
    (mkDoc "nano" []).History.length = 0 ∧
    Decodes (worldOf (mkDoc "nano" [])) "pspec.xml" (mkDoc "nano" []) ∧
    ∃ e, NewXMLPackage (worldOf (mkDoc "nano" [])) "pspec.xml" = .ret none (some e) ∧
      e.Error = "xml: Malformed pspec file" ∧
      e.Error ≠ "malformed pspec: missing history" :=
  ⟨rfl, Decodes_worldOf _ _, errorsNew "xml: Malformed pspec file", by decide, by decide,
    by decide⟩

/-- C14, amended: when the file decodes to a document whose history has zero
entries, `NewXMLPackage` returns a nil record and an error whose message is
"xml: Malformed pspec file". -/
theorem NewXMLPackage_history_message (w : World) (path : String) (xpkg : XMLPackage)
    (hd : Decodes w path xpkg) (hh : xpkg.History.length = 0) :
    ∃ e, NewXMLPackage w path = .ret none (some e) ∧
      e.Error = "xml: Malformed pspec file" :=
  ⟨errorsNew "xml: Malformed pspec file",
    NewXMLPackage_nil w path xpkg hd (List.length_eq_zero.mp hh), rfl⟩

/-- The amended C14 on a document named "nano" with an empty history. -/
theorem NewXMLPackage_history_message_witness :
    ∃ e, NewXMLPackage (worldOf (mkDoc "nano" [])) "pspec.xml" = .ret none (some e) ∧
      e.Error = "xml: Malformed pspec file" :=
  NewXMLPackage_history_message (worldOf (mkDoc "nano" [])) "pspec.xml" (mkDoc "nano" [])
    (Decodes_worldOf _ _) (by decide)

/-- C15: `NewXMLPackage` is total: in every world and for every path it returns
a pair of results and does not stop in a run-time panic, because the access to
the first history entry comes after the length check, and a history that passes
the check has an entry at index 0. -/
theorem NewXMLPackage_total (w : World) (path : String) :
    (∃ pkg err, NewXMLPackage w path = .ret pkg err) ∧
    NewXMLPackage w path ≠ .panic ∧
    ∀ xpkg : XMLPackage, ¬ xpkg.History.length < 1 → ∃ upd, xpkg.History[0]? = some upd := by
  obtain ⟨pkg, err, h⟩ := NewXMLPackage_returns w path
  refine ⟨⟨pkg, err, h⟩, ?_, index_zero_in_range⟩
  rw [h]
  exact fun hc => Outcome.noConfusion hc

end Solbuild
